import Mathlib

/-!
Shallow embedding of the core of the `tap_runner` repository
(src/main.rs and src/widgets.rs): the TAP tree flattener, the
classification loop of `App::run_tests`, the transient-error latch,
`Location::from_str`, the preview windowing of `generate_failure_preview`,
and the `StatefulList` selection widget.

Machine integers (`usize`) are modelled as `Nat`; every source subtraction
that can underflow is modelled with the checked subtraction `csub`, where
`none` stands for the arithmetic-overflow panic of a debug build.
-/

namespace TapRunner

/-- Kind of a TAP directive, mirroring `tap_parser::DirectiveKind`. -/
inductive DirectiveKind where
  | skip
  | todo
deriving DecidableEq, Repr

/-- A directive attached to a test point (src/main.rs:47-51). -/
structure Directive where
  key : DirectiveKind
  reason : Option String
deriving DecidableEq, Repr

/-- A source location (src/main.rs:65-69). `line` is a `usize` in the source. -/
structure Location where
  file : String
  line : Nat
deriving DecidableEq, Repr

/-- A raw TAP test point as produced by the external `tap_parser`
collaborator (`tap_parser::TapTest`): result flag, optional explicit
number, optional description, optional directive, and the YAML block as a
list of lines. -/
structure TapTest where
  result : Bool
  number : Option Nat
  desc : Option String
  directive : Option Directive
  yaml : List String
deriving DecidableEq, Repr

/-- A TAP statement as produced by the external parser
(`tap_parser::TapStatement`): a plain test point, a subtest (group) with
child statements and a trailing summary test point, or any other statement
kind (comments, pragmas, ...), which the flattener ignores. -/
inductive TapStatement where
  | testPoint (t : TapTest)
  | subtest (statements : List TapStatement) (ending : TapTest)
  | other
deriving Repr

/-- The flattened test record (src/main.rs:53-63). The `location` field is
filled by the external jq-filter pipeline; with no filter configured the
source sets it to `None` (src/main.rs:285), which is the configuration
modelled here. -/
structure Test where
  result : Bool
  number : Nat
  desc : Option String
  directive : Option Directive
  yaml : String
  location : Option Location
  parents : List Nat
deriving DecidableEq, Repr

/-- Embeds `handle_test_point` (src/main.rs:247-305) in the configuration
where no location filter is set: the `location` match falls through to
`None` and no error is produced. The ordinal is the explicit test number
when present, else the caller-supplied positional index
(`test.number.unwrap_or(number)`, src/main.rs:290). -/
def handleTestPoint (test : TapTest) (parents : List Nat) (number : Nat) : Test :=
  { result := test.result
    number := test.number.getD number
    desc := test.desc
    directive := test.directive
    yaml := String.intercalate "\n" test.yaml
    location := none
    parents := parents }

mutual

/-- Embeds `handle_statement` (src/main.rs:241-322): a subtest flattens its
children with the lineage extended by the subtest's own positional index,
then appends one record for the trailing summary test point built with the
caller's (unextended) lineage and the subtest's own positional index; a
test point yields one record; any other statement yields nothing. -/
def handleStatement : TapStatement → Nat → List Nat → List Test
  | .subtest sts ending, number, parents =>
    handleBodyAux sts 0 (parents ++ [number]) ++ [handleTestPoint ending parents number]
  | .testPoint t, number, parents => [handleTestPoint t parents number]
  | .other, _, _ => []

/-- Embeds `handle_body` (src/main.rs:231-239): each sibling statement is
processed with its 0-based position in the sibling list (the
`enumerate` of the source, written here with an explicit counter `i`). -/
def handleBodyAux : List TapStatement → Nat → List Nat → List Test
  | [], _, _ => []
  | st :: rest, i, parents => handleStatement st i parents ++ handleBodyAux rest (i + 1) parents

end

/-- `handle_body` called on a statement list: positions start at 0. -/
def handleBody (body : List TapStatement) (parents : List Nat) : List Test :=
  handleBodyAux body 0 parents

example : handleBody [TapStatement.other] [] = [] := rfl

example :
    handleBody [TapStatement.subtest [TapStatement.testPoint ⟨false, none, none, none, []⟩]
      ⟨true, none, none, none, []⟩] []
      = [⟨false, 0, none, none, "", none, [0]⟩, ⟨true, 0, none, none, "", none, []⟩] := rfl

/-- Status of one flattened test (src/main.rs:86-90). -/
inductive TestResult where
  | skip
  | success
  | fail
deriving DecidableEq, Repr

/-- The display identifier computed in the loop of `App::run_tests`
(src/main.rs:328-332): the lineage chained with the record's own ordinal,
dot-joined. -/
def identifier (t : Test) : String :=
  String.intercalate "." ((t.parents ++ [t.number]).map toString)

/-- The three dashboard lists built by `App::run_tests`: statuses, skip
records, and the failure records (before they are wrapped into the
stateful selection list). -/
structure RunLists where
  statuses : List TestResult
  skipped : List (String × Option String × Option String)
  failure : List (String × Option String × String × Option Location)
deriving DecidableEq, Repr

/-- One iteration of the classification loop of `App::run_tests`
(src/main.rs:333-344): a failed result is pushed to the failure list
regardless of any directive; a passed result with a Skip directive is
pushed to the skip list with the directive's reason; any other passed
result (unannotated or Todo) counts as success. -/
def classifyStep (acc : RunLists) (t : Test) : RunLists :=
  if t.result = false then
    { acc with
      failure := acc.failure ++ [(identifier t, t.desc, t.yaml, t.location)]
      statuses := acc.statuses ++ [.fail] }
  else
    match t.directive with
    | some d =>
      if d.key = .skip then
        { acc with
          skipped := acc.skipped ++ [(identifier t, t.desc, d.reason)]
          statuses := acc.statuses ++ [.skip] }
      else { acc with statuses := acc.statuses ++ [.success] }
    | none => { acc with statuses := acc.statuses ++ [.success] }

/-- Rust `Option::or`: keeps the first operand when it is `some`. -/
def optionOr (a b : Option α) : Option α :=
  match a with
  | some x => some x
  | none => b

/-- Embeds the classification loop of `App::run_tests` (src/main.rs:324-347)
over the flattened `(Test, Option error)` pairs, threading both the
dashboard lists (started empty: the prologue at src/main.rs:203-206 and the
re-clear at src/main.rs:324-326 reset them) and the transient-error slot.
`prevErr` is the value of `self.err` on entry to `run_tests`: the prologue
does NOT reset it, and each iteration runs
`self.err = self.err.take().or(err)` (src/main.rs:345). Per-leaf errors
come from the external YAML/filter collaborators and are taken abstractly
as strings. -/
def runTestsLoop (prevErr : Option String) (results : List (Test × Option String)) :
    RunLists × Option String :=
  results.foldl (fun st r => (classifyStep st.1 r.1, optionOr st.2 r.2)) (⟨[], [], []⟩, prevErr)

/-- The first `some` element of a list of optional errors: the first error
surfaced during a run, in emission order (spec-side description of the
error latch). -/
def firstSome : List (Option String) → Option String
  | [] => none
  | some e :: _ => some e
  | none :: rest => firstSome rest

/-- `widgets::StatefulList` (src/widgets.rs:65-68): an item list plus an
optional selected index (the `ListState` of the rendering library holds
exactly an optional selected index). -/
structure StatefulList (T : Type) where
  selected : Option Nat
  items : List T
deriving DecidableEq, Repr

/-- Checked `usize` subtraction: `none` models the overflow panic of a
debug build (in release the wrapped value feeds `Vec::drain`, which then
panics on an out-of-bounds range at the inputs considered here). -/
def csub (a b : Nat) : Option Nat :=
  if b ≤ a then some (a - b) else none

/-- `StatefulList::empty` (src/widgets.rs:71-73). -/
def StatefulList.emptyList (T : Type) : StatefulList T :=
  ⟨none, []⟩

/-- `StatefulList::with_items` (src/widgets.rs:88-93): fresh state, no
selection. -/
def StatefulList.withItems (items : List T) : StatefulList T :=
  ⟨none, items⟩

/-- `StatefulList::next` (src/widgets.rs:95-107). With a selection, the
source computes `self.items.len() - 1` unchecked; `none` models the
underflow panic on an empty list. With no selection it selects index 0,
also on an empty list. -/
def StatefulList.next (l : StatefulList T) : Option (StatefulList T) :=
  match l.selected with
  | some i =>
    match csub l.items.length 1 with
    | none => none
    | some lastIdx => some { l with selected := some (if lastIdx ≤ i then 0 else i + 1) }
  | none => some { l with selected := some 0 }

/-- `StatefulList::previous` (src/widgets.rs:109-121). With selection 0 the
source computes `self.items.len() - 1` unchecked; `none` models the
underflow panic on an empty list. With no selection it selects index 0,
also on an empty list. -/
def StatefulList.previous (l : StatefulList T) : Option (StatefulList T) :=
  match l.selected with
  | some i =>
    if i = 0 then
      match csub l.items.length 1 with
      | none => none
      | some v => some { l with selected := some v }
    else some { l with selected := some (i - 1) }
  | none => some { l with selected := some 0 }

/-- `StatefulList::unselect` (src/widgets.rs:123-125). -/
def StatefulList.unselect (l : StatefulList T) : StatefulList T :=
  { l with selected := none }

/-- Embeds the windowing step of `generate_failure_preview`
(src/main.rs:551-563) as the number of leading lines drained: `total` is
`preview.lines.len()`, `height` the viewport height (`area.height - 2` in
the caller), `line` the 1-based target line. Every `usize` subtraction of
the source is modelled with `csub` (underflow panics), and the final
`preview.lines.drain(0..discard)` panics when `discard` exceeds the line
count, modelled by the trailing bound check. -/
def centerOffset (total height line : Nat) : Option Nat :=
  if height < line then
    (csub line height).bind fun out =>
      let discardToCenter := out + height / 2
      (csub total discardToCenter).bind fun wouldRemain =>
        ((if height < wouldRemain then some discardToCenter
          else (csub height wouldRemain).bind fun d => csub discardToCenter d).bind
          fun discard => if discard ≤ total then some discard else none)
  else some 0

/-- The centering rule exactly as the specification states it (spec §4.4),
over integers so that no subtraction truncates: `overflow`, `centered`,
`remaining` and the two result branches; the division rounds down. Used to
compare the source computation against the specified formula. -/
def centerSpecFormula (total height line : Nat) : Int :=
  if line ≤ height then 0
  else
    let overflow : Int := (line : Int) - (height : Int)
    let centered : Int := overflow + ((height / 2 : Nat) : Int)
    let remaining : Int := (total : Int) - centered
    if (height : Int) < remaining then centered
    else centered - ((height : Int) - remaining)

/-- Rust `str::split_once`: split at the first occurrence of `c`, yielding
the part before and the part after; `none` when `c` does not occur. -/
def splitOnce : List Char → Char → Option (List Char × List Char)
  | [], _ => none
  | x :: rest, c =>
    if x = c then some ([], rest)
    else
      match splitOnce rest c with
      | none => none
      | some (a, b) => some (x :: a, b)

/-- ASCII digit test. -/
def isAsciiDigit (c : Char) : Bool :=
  '0' ≤ c && c ≤ '9'

/-- Numeric value of a digit string, most significant first. -/
def digitsToNat (l : List Char) : Nat :=
  l.foldl (fun acc c => acc * 10 + (c.toNat - Char.toNat '0')) 0

/-- Upper bound of `usize` values on a 64-bit target, exclusive. -/
def usizeBound : Nat :=
  2 ^ 64

/-- The digit part of a numeral: everything after one optional leading `+`
sign. -/
def stripPlus (l : List Char) : List Char :=
  if l.head? = some '+' then l.tail else l

/-- Rust `usize::from_str` on a 64-bit target: an optional leading `+`
sign, then one or more ASCII digits, and the value must fit in the type
(otherwise the parse reports overflow and fails). -/
def parseUsize (l : List Char) : Option Nat :=
  if stripPlus l ≠ [] ∧ (stripPlus l).all isAsciiDigit = true
      ∧ digitsToNat (stripPlus l) < usizeBound then
    some (digitsToNat (stripPlus l))
  else none

/-- `Location::from_str` (src/main.rs:71-84): split at the first colon,
fail if there is none, then parse the remainder as a `usize`; parse errors
propagate as failure. -/
def Location.fromStr (s : List Char) : Option Location :=
  match splitOnce s ':' with
  | none => none
  | some (file, line) =>
    match parseUsize line with
    | none => none
    | some n => some ⟨String.mk file, n⟩

/-- Spec-side: everything after the first colon of a string (the line
segment of a `path:line` pair), written independently of `splitOnce`. -/
def afterFirstColon : List Char → List Char
  | [] => []
  | c :: rest => if c = ':' then rest else afterFirstColon rest

/-- Spec-side: the line segment is a textual non-negative integer the
`usize` parser accepts: digits, optionally preceded by one `+` sign,
nonempty, and within the 64-bit range. -/
def validLineSegment (l : List Char) : Prop :=
  ∃ ds, (l = ds ∨ l = '+' :: ds) ∧ ds ≠ [] ∧ ds.all isAsciiDigit = true ∧
    digitsToNat ds < usizeBound

mutual

/-- Spec-side count for one statement: one record per leaf at any depth
plus one trailing summary per group, nothing for other statements. -/
def countStatement : TapStatement → Nat
  | .testPoint _ => 1
  | .subtest sts _ => countBody sts + 1
  | .other => 0

/-- Spec-side count for a statement list. -/
def countBody : List TapStatement → Nat
  | [] => 0
  | st :: rest => countStatement st + countBody rest

end

/-- A minimal passing test record, used for concrete evaluations. -/
def passTest : Test :=
  ⟨true, 0, none, none, "", none, []⟩

/-- The passing leaf of concrete scenario 3: skip directive with reason
"slow". -/
def skipPassTest : Test :=
  ⟨true, 0, none, some ⟨.skip, some "slow"⟩, "", none, []⟩

/-- The failing leaf of concrete scenario 3: same skip directive, failed. -/
def skipFailTest : Test :=
  ⟨false, 0, none, some ⟨.skip, some "slow"⟩, "", none, []⟩

/-- The document of concrete scenario 2: one group at position 0 holding
one failing child leaf at position 0, with a passing summary leaf. -/
def scenarioTwoDoc : List TapStatement :=
  [TapStatement.subtest [TapStatement.testPoint ⟨false, none, none, none, []⟩]
    ⟨true, none, none, none, []⟩]

theorem handleBodyAux_append (xs ys : List TapStatement) (i : Nat) (p : List Nat) :
    handleBodyAux (xs ++ ys) i p = handleBodyAux xs i p ++ handleBodyAux ys (i + xs.length) p := by
  induction xs generalizing i with
  | nil => simp [handleBodyAux]
  | cons st rest ih =>
    simp only [List.cons_append, handleBodyAux, List.append_eq, ih, List.append_assoc,
      List.length_cons]
    have h : i + 1 + rest.length = i + (rest.length + 1) := by omega
    rw [h]

mutual

theorem handleStatement_length (st : TapStatement) (n : Nat) (p : List Nat) :
    (handleStatement st n p).length = countStatement st := by
  cases st with
  | testPoint t => rfl
  | subtest sts ending =>
    simp [handleStatement, countStatement, handleBodyAux_length sts 0 (p ++ [n])]
  | other => rfl

theorem handleBodyAux_length (body : List TapStatement) (i : Nat) (p : List Nat) :
    (handleBodyAux body i p).length = countBody body := by
  cases body with
  | nil => rfl
  | cons st rest =>
    simp [handleBodyAux, countBody, handleStatement_length st i p,
      handleBodyAux_length rest (i + 1) p]

end

theorem foldl_optionOr_some (x : String) (l : List (Option String)) :
    l.foldl optionOr (some x) = some x := by
  induction l with
  | nil => rfl
  | cons e rest ih => simpa [optionOr] using ih

theorem foldl_optionOr_eq (l : List (Option String)) (prev : Option String) :
    l.foldl optionOr prev = optionOr prev (firstSome l) := by
  induction l generalizing prev with
  | nil => cases prev <;> rfl
  | cons e rest ih =>
    cases prev with
    | some x => simp [optionOr, foldl_optionOr_some]
    | none =>
      cases e with
      | some y => simp [optionOr, firstSome, foldl_optionOr_some]
      | none => simpa [optionOr, firstSome] using ih none

theorem runTestsLoop_snd_aux (rs : List (Test × Option String)) (acc : RunLists)
    (e : Option String) :
    (rs.foldl (fun st r => (classifyStep st.1 r.1, optionOr st.2 r.2)) (acc, e)).2
      = (rs.map Prod.snd).foldl optionOr e := by
  induction rs generalizing acc e with
  | nil => rfl
  | cons r rest ih => simpa using ih (classifyStep acc r.1) (optionOr e r.2)

theorem centerOffset_eq (total height line : Nat) (h1 : height < line) (h2 : line ≤ total) :
    centerOffset total height line
      = some (if height < total - (line - height + height / 2)
          then line - height + height / 2 else total - height) := by
  have h1' : height ≤ line := Nat.le_of_lt h1
  have hd2 : height / 2 ≤ height := Nat.div_le_self _ _
  have hdtc : line - height + height / 2 ≤ total := by omega
  by_cases hb : height < total - (line - height + height / 2)
  · simp [centerOffset, csub, h1, h1', hdtc, hb]
  · have hr : height - (total - (line - height + height / 2))
        ≤ line - height + height / 2 := by omega
    have hc : total ≤ height + (line - height + height / 2) := by omega
    have hval : line - height + height / 2
        - (height - (total - (line - height + height / 2))) = total - height := by omega
    have hfin : total - height ≤ total := by omega
    simp [centerOffset, csub, h1, h1', hdtc, hb, hr, hc, hval, hfin]

theorem splitOnce_isSome_iff (s : List Char) (c : Char) :
    (splitOnce s c).isSome ↔ c ∈ s := by
  induction s with
  | nil => simp [splitOnce]
  | cons x rest ih =>
    by_cases hx : x = c
    · simp [splitOnce, hx]
    · have hsame : (splitOnce (x :: rest) c).isSome = (splitOnce rest c).isSome := by
        simp only [splitOnce, if_neg hx]
        cases h : splitOnce rest c with
        | none => rfl
        | some p => cases p; rfl
      rw [hsame, ih]
      constructor
      · exact fun h => List.mem_cons_of_mem _ h
      · intro h
        rcases List.mem_cons.mp h with h | h
        · exact absurd h.symm hx
        · exact h

theorem splitOnce_colon_snd (s : List Char) (a b : List Char)
    (h : splitOnce s ':' = some (a, b)) : b = afterFirstColon s := by
  induction s generalizing a with
  | nil => simp [splitOnce] at h
  | cons x rest ih =>
    by_cases hx : x = ':'
    · simp only [splitOnce, if_pos hx, Option.some.injEq, Prod.mk.injEq] at h
      simp only [afterFirstColon, if_pos hx]
      exact h.2.symm
    · simp only [splitOnce, if_neg hx] at h
      simp only [afterFirstColon, if_neg hx]
      cases hrec : splitOnce rest ':' with
      | none => rw [hrec] at h; simp at h
      | some p =>
        obtain ⟨a', b'⟩ := p
        rw [hrec] at h
        simp only [Option.some.injEq, Prod.mk.injEq] at h
        obtain ⟨h1, h2⟩ := h
        subst h2
        exact ih a' hrec

theorem plus_not_digit : isAsciiDigit '+' = false := by decide

theorem parseUsize_isSome_cond (l : List Char) :
    (parseUsize l).isSome ↔ (stripPlus l ≠ [] ∧ (stripPlus l).all isAsciiDigit = true
      ∧ digitsToNat (stripPlus l) < usizeBound) := by
  unfold parseUsize
  split
  · rename_i h
    simpa using h
  · rename_i h
    simpa using h

theorem parseUsize_isSome_iff (l : List Char) :
    (parseUsize l).isSome ↔ validLineSegment l := by
  rw [parseUsize_isSome_cond]
  by_cases hp : l.head? = some '+'
  · obtain ⟨c, rest, rfl⟩ : ∃ c rest, l = c :: rest := by
      cases l with
      | nil => simp at hp
      | cons c rest => exact ⟨c, rest, rfl⟩
    simp only [List.head?_cons, Option.some.injEq] at hp
    subst hp
    have hstrip : stripPlus ('+' :: rest) = rest := by
      simp [stripPlus]
    rw [hstrip]
    constructor
    · rintro ⟨hne, hall, hlt⟩
      exact ⟨rest, Or.inr rfl, hne, hall, hlt⟩
    · rintro ⟨ds, hds, hne, hall, hlt⟩
      have hrest : rest = ds := by
        rcases hds with h | h
        · exfalso
          rw [← h, List.all_cons, plus_not_digit] at hall
          simp at hall
        · exact ((List.cons.injEq _ _ _ _).mp h).2
      subst hrest
      exact ⟨hne, hall, hlt⟩
  · have hstrip : stripPlus l = l := by
      simp [stripPlus, hp]
    rw [hstrip]
    constructor
    · rintro ⟨hne, hall, hlt⟩
      exact ⟨l, Or.inl rfl, hne, hall, hlt⟩
    · rintro ⟨ds, hds, hne, hall, hlt⟩
      have hl : l = ds := by
        rcases hds with h | h
        · exact h
        · exfalso
          apply hp
          rw [h]
          rfl
      subst hl
      exact ⟨hne, hall, hlt⟩

/-- C1 (amended): the transient-error slot after a run equals the error
already retained on entry when there is one, and otherwise the first error
surfaced during the run; later errors of the same run never overwrite an
earlier one. The `run_tests` prologue does not clear `self.err`, so a
fresh re-run does not clear a still-retained transient error and the
first error of the new run is displayed only when none was retained. -/
theorem run_error_latch (prev : Option String) (rs : List (Test × Option String)) :
    (runTestsLoop prev rs).2 = optionOr prev (firstSome (rs.map Prod.snd)) := by
  unfold runTestsLoop
  rw [runTestsLoop_snd_aux, foldl_optionOr_eq]

/-- C1 counterexample: with error "stale" retained from an earlier run and
a fresh run whose first surfaced error is "fresh", the slot still holds
"stale" after the run — a fresh re-run does not clear the retained
transient error, contrary to the claim. -/
theorem run_error_not_cleared_cex :
    (runTestsLoop (some "stale") [(passTest, some "fresh")]).2 = some "stale"
      ∧ some "stale" ≠ (some "fresh" : Option String) :=
  ⟨rfl, by decide⟩

/-- C2 (the code evaluated at the failing inputs): on the empty
`StatefulList`, `next` and `previous` select index 0 instead of being
no-ops, so the selection does not remain absent and the invariant
`selected < length` is violated; and with a selection present on the empty
list, `previous` and `next` compute `items.len() - 1`, which underflows
(`none` models the panic). -/
theorem statefulList_empty_nav_bug :
    StatefulList.next (StatefulList.emptyList Unit) = some ⟨some 0, []⟩
      ∧ StatefulList.previous (StatefulList.emptyList Unit) = some ⟨some 0, []⟩
      ∧ StatefulList.previous (⟨some 0, []⟩ : StatefulList Unit) = none
      ∧ StatefulList.next (⟨some 0, []⟩ : StatefulList Unit) = none :=
  ⟨rfl, rfl, rfl, rfl⟩

/-- C3 counterexample: at `total = 20`, `height = 10`, `line = 100` the
hypotheses of the claim hold (`total ≥ height`, `line` positive), yet the
computation underflows (`preview.lines.len() - discard_to_center` with
`discard_to_center > total`), modelled by `none`: no offset is returned at
all, contrary to the claim. -/
theorem centerOffset_underflow_cex :
    10 ≤ 20 ∧ 1 ≤ 100 ∧ centerOffset 20 10 100 = none := by
  decide

/-- C3 (amended): when additionally the target line does not exceed the
number of lines, the windowing of `generate_failure_preview` computes an
offset without underflow, and the offset (a natural number, hence never
negative) satisfies `offset + height ≤ total`. -/
theorem centerOffset_bounded (total height line : Nat) (hht : height ≤ total)
    (_hpos : 1 ≤ line) (hlt : line ≤ total) :
    ∃ off, centerOffset total height line = some off ∧ off + height ≤ total := by
  by_cases h1 : height < line
  · rw [centerOffset_eq total height line h1 hlt]
    refine ⟨_, rfl, ?_⟩
    split <;> omega
  · refine ⟨0, ?_, by omega⟩
    simp [centerOffset, h1]

/-- C3 witness: the amended bound at `total = 100`, `height = 20`,
`line = 95`. -/
theorem centerOffset_bounded_witness :
    ∃ off, centerOffset 100 20 95 = some off ∧ off + 20 ≤ 100 :=
  centerOffset_bounded 100 20 95 (by decide) (by decide) (by decide)

/-- C4: flattening a group first emits its children, flattened with the
ancestor chain extended by the group's own positional index, then one
record for the trailing summary leaf with the caller's unextended chain
and ordinal defaulting to the group's positional index; on the concrete
scenario (group at position 0 with one failing child at position 0), the
flattened order is child then summary and the failure list holds
identifier "0.0". -/
theorem group_flatten_order :
    (∀ (sts : List TapStatement) (ending : TapTest) (number : Nat) (parents : List Nat),
        handleStatement (.subtest sts ending) number parents
            = handleBody sts (parents ++ [number]) ++ [handleTestPoint ending parents number]
          ∧ (handleTestPoint ending parents number).parents = parents
          ∧ (handleTestPoint ending parents number).number = ending.number.getD number)
      ∧ handleBody scenarioTwoDoc []
          = [⟨false, 0, none, none, "", none, [0]⟩, ⟨true, 0, none, none, "", none, []⟩]
      ∧ (runTestsLoop none ((handleBody scenarioTwoDoc []).map fun t => (t, none))).1.failure
          = [("0.0", none, "", none)] :=
  ⟨fun _ _ _ _ => ⟨rfl, rfl, rfl⟩, rfl, rfl⟩

/-- C5: the number of flattened records equals the number of leaves at
every depth plus one trailing summary per group, with other statements
contributing nothing; determinism is immediate since the flattener is a
pure function of the document and the lineage. -/
theorem flatten_count :
    (∀ (body : List TapStatement) (parents : List Nat),
        (handleBody body parents).length = countBody body
          ∧ handleBody body parents = handleBody body parents)
      ∧ ∀ (n : Nat) (parents : List Nat), handleStatement .other n parents = [] :=
  ⟨fun body parents => ⟨handleBodyAux_length body 0 parents, rfl⟩, fun _ _ => rfl⟩

/-- C6: the classification loop classifies a failed result as Fail
regardless of any directive and appends it to the failure list; a passed
result with a Skip directive as Skip, appending its reason to the skip
list; and any other passed result (unannotated or Todo) as Success; on
the concrete scenario, a passed skip-with-reason-"slow" leaf lands in the
skip list with that reason, while the failed variant lands in the failure
list with the reason ignored. -/
theorem classification_policy :
    (∀ (acc : RunLists) (t : Test),
        (t.result = false →
          classifyStep acc t
            = { acc with
                failure := acc.failure ++ [(identifier t, t.desc, t.yaml, t.location)]
                statuses := acc.statuses ++ [.fail] })
          ∧ (∀ d, t.result = true → t.directive = some d → d.key = .skip →
              classifyStep acc t
                = { acc with
                    skipped := acc.skipped ++ [(identifier t, t.desc, d.reason)]
                    statuses := acc.statuses ++ [.skip] })
          ∧ (t.result = true → t.directive = none →
              classifyStep acc t = { acc with statuses := acc.statuses ++ [.success] })
          ∧ (∀ d, t.result = true → t.directive = some d → d.key = .todo →
              classifyStep acc t = { acc with statuses := acc.statuses ++ [.success] }))
      ∧ (runTestsLoop none [(skipPassTest, none)]).1
          = ⟨[TestResult.skip], [("0", none, some "slow")], []⟩
      ∧ (runTestsLoop none [(skipFailTest, none)]).1
          = ⟨[TestResult.fail], [], [("0", none, "", none)]⟩ := by
  refine ⟨fun acc t => ⟨?_, ?_, ?_, ?_⟩, rfl, rfl⟩
  · intro hres
    simp [classifyStep, hres]
  · intro d hres hdir hkey
    simp [classifyStep, hres, hdir, hkey]
  · intro hres hdir
    simp [classifyStep, hres, hdir]
  · intro d hres hdir hkey
    have hne : d.key ≠ DirectiveKind.skip := by
      rw [hkey]
      decide
    simp [classifyStep, hres, hdir, hne]

/-- C6 witness: the skip branch of the policy applied to the concrete
passed leaf of scenario 3. -/
theorem classification_policy_witness :
    classifyStep ⟨[], [], []⟩ skipPassTest
      = ⟨[TestResult.skip], [(identifier skipPassTest, none, some "slow")], []⟩ := by
  simpa using
    (classification_policy.1 ⟨[], [], []⟩ skipPassTest).2.1 ⟨.skip, some "slow"⟩ rfl rfl rfl

/-- C7 counterexample: at `total = 50`, `height = 10`, `line = 60` the
specified formula yields 40, but the source computation underflows
(`none` models the panic) instead of returning it, so the claim does not
hold for every positive target line. -/
theorem centerOffset_formula_cex :
    centerOffset 50 10 60 = none ∧ centerSpecFormula 50 10 60 = 40 := by
  decide

/-- C7 (amended): the windowing returns offset 0 whenever
`line ≤ height`; when `height < line ≤ total` it returns exactly the
offset of the specified overflow/centered/remaining formula; and on the
concrete scenario `center(100, 20, 95) = 80`. For `line > total` the
computation underflows instead (see the counterexample). -/
theorem centerOffset_formula (total height line : Nat) :
    (line ≤ height →
        centerOffset total height line = some 0 ∧ centerSpecFormula total height line = 0)
      ∧ (height < line → line ≤ total →
          ∃ off, centerOffset total height line = some off
            ∧ (off : Int) = centerSpecFormula total height line)
      ∧ centerOffset 100 20 95 = some 80 := by
  refine ⟨?_, ?_, by decide⟩
  · intro hle
    constructor
    · simp [centerOffset, Nat.not_lt.mpr hle]
    · simp [centerSpecFormula, hle]
  · intro h1 h2
    rw [centerOffset_eq total height line h1 h2]
    refine ⟨_, rfl, ?_⟩
    simp only [centerSpecFormula, if_neg (by omega : ¬ line ≤ height)]
    split <;> split <;> push_cast <;> omega

/-- C7 witness: the amended formula agreement at `total = 100`,
`height = 20`, `line = 95`. -/
theorem centerOffset_formula_witness :
    ∃ off, centerOffset 100 20 95 = some off
      ∧ (off : Int) = centerSpecFormula 100 20 95 :=
  (centerOffset_formula 100 20 95).2.1 (by decide) (by decide)

/-- C8: a leaf emits one record whose ordinal is its explicit number when
present and otherwise the caller-supplied positional index, whose lineage
is the caller-supplied ancestor chain, and whose display identifier is the
dot-joined lineage followed by the ordinal; concretely, an explicit number
5 at position 2 under lineage [1] yields ordinal 5 and identifier "1.5",
and without an explicit number the ordinal is 2. -/
theorem leaf_ordinal_lineage :
    (∀ (t : TapTest) (parents : List Nat) (number : Nat),
        handleStatement (.testPoint t) number parents = [handleTestPoint t parents number]
          ∧ (handleTestPoint t parents number).number = t.number.getD number
          ∧ (handleTestPoint t parents number).parents = parents
          ∧ identifier (handleTestPoint t parents number)
              = String.intercalate "." ((parents ++ [t.number.getD number]).map toString))
      ∧ (handleTestPoint ⟨true, some 5, none, none, []⟩ [1] 2).number = 5
      ∧ (handleTestPoint ⟨true, none, none, none, []⟩ [1] 2).number = 2
      ∧ identifier (handleTestPoint ⟨true, some 5, none, none, []⟩ [1] 2) = "1.5" :=
  ⟨fun _ _ _ => ⟨rfl, rfl, rfl, rfl⟩, rfl, rfl, rfl⟩

/-- C9: parsing a `Location` from text succeeds exactly when the text
contains a colon and the segment after the first colon is a numeral the
`usize` parser accepts (optional `+` sign, one or more digits, within
range) — and a line value of 0 is accepted, as in "f:0". -/
theorem location_fromStr_iff :
    (∀ s : List Char,
        (Location.fromStr s).isSome ↔ (':' ∈ s ∧ validLineSegment (afterFirstColon s)))
      ∧ Location.fromStr [ 'f', ':', '0' ] = some ⟨"f", 0⟩ := by
  refine ⟨fun s => ?_, by decide⟩
  cases hsplit : splitOnce s ':' with
  | none =>
    have hmem : ':' ∉ s := by
      rw [← splitOnce_isSome_iff s ':', hsplit]
      simp
    simp [Location.fromStr, hsplit, hmem]
  | some p =>
    obtain ⟨a, b⟩ := p
    have hmem : ':' ∈ s := by
      rw [← splitOnce_isSome_iff s ':', hsplit]
      rfl
    have hb : b = afterFirstColon s := splitOnce_colon_snd s a b hsplit
    have hiff := parseUsize_isSome_iff b
    constructor
    · intro h
      refine ⟨hmem, ?_⟩
      rw [← hb]
      rw [← hiff]
      simp only [Location.fromStr, hsplit] at h
      cases hparse : parseUsize b with
      | none => rw [hparse] at h; simp at h
      | some n => rfl
    · rintro ⟨-, hvalid⟩
      rw [← hb, ← hiff] at hvalid
      simp only [Location.fromStr, hsplit]
      cases hparse : parseUsize b with
      | none => rw [hparse] at hvalid; simp at hvalid
      | some n => rfl

/-- C10: during flattening, every sibling consumes one positional index,
including statements that emit nothing: a leaf without an explicit number
placed after a sibling list `pre` receives ordinal `pre.length`, counted
over all siblings; concretely, a leaf after one ignored statement gets
ordinal 1, not 0. -/
theorem sibling_position_counts_all :
    ∀ (pre : List TapStatement) (t : TapTest) (p : List Nat),
      t.number = none →
      handleBody (pre ++ [TapStatement.testPoint t]) p
          = handleBody pre p ++ [handleTestPoint t p pre.length]
        ∧ (handleTestPoint t p pre.length).number = pre.length
        ∧ handleBody [TapStatement.other, TapStatement.testPoint t] p
            = [handleTestPoint t p 1] := by
  intro pre t p hn
  refine ⟨?_, ?_, ?_⟩
  · rw [handleBody, handleBody, handleBodyAux_append]
    simp [handleBodyAux, handleStatement]
  · simp [handleTestPoint, hn]
  · simp [handleBody, handleBodyAux, handleStatement]

/-- C10 witness: one ignored statement followed by a numberless leaf: the
leaf receives ordinal 1. -/
theorem sibling_position_counts_all_witness :
    handleBody ([TapStatement.other] ++ [TapStatement.testPoint ⟨true, none, none, none, []⟩]) []
        = handleBody [TapStatement.other] []
            ++ [handleTestPoint ⟨true, none, none, none, []⟩ [] 1]
      ∧ (handleTestPoint ⟨true, none, none, none, []⟩ [] 1).number = 1 := by
  have h := sibling_position_counts_all [TapStatement.other] ⟨true, none, none, none, []⟩ [] rfl
  exact ⟨h.1, h.2.1⟩

end TapRunner
